import Mathlib

/-!
Verification development for the FANG+ NAV estimator pipeline
(`src/main.py`).  The program back-calculates per-holding share counts
from the last published NAV, revalues them at the latest prices and FX
rate, formats a report and pushes it to a messaging endpoint.

Modelling conventions:
* Python floats are modelled by `ℚ`; a Python `ZeroDivisionError` is
  modelled by `Option`/`Except` failure, exactly where the source
  performs a pure-Python float division (both operands passed through
  `float(...)` or built from float literals).  Divisions whose divisor
  is a NumPy `float64` — the per-holding price lookups, which are taken
  from a pandas row without a `float()` conversion — do NOT raise in
  the source: they return IEEE ±infinity or NaN with a RuntimeWarning.
  `npDiv` models that value-level behaviour; the ℚ-valued definitions
  are exact on the nonzero-divisor domain the claims quantify over.
* The ticker-symbol strings of the weight table are modelled by the
  enumerated type `Ticker`; the Python dict `WEIGHTS` becomes an
  association list in the same order.
* pandas positional row access (`iloc`) is modelled by `iloc` on lists,
  with pandas' negative-index semantics and its `IndexError` failure.
* Side effects (printing, HTTP) are modelled as explicit action lists.
-/

namespace FangNav

/-- Constituent holdings of the fund: the ten ticker symbols that key the
weight table `WEIGHTS` in the source. -/
inductive Ticker where
  | CRWD
  | NVDA
  | AAPL
  | GOOGL
  | AVGO
  | MSFT
  | NOW
  | AMZN
  | NFLX
  | META
deriving DecidableEq, Fintype

/-- The weight table of the source (module-level constant `WEIGHTS`,
in source order, weights as exact decimals). -/
def WEIGHTS : List (Ticker × ℚ) :=
  [(Ticker.CRWD, 0.1110),
   (Ticker.NVDA, 0.1100),
   (Ticker.AAPL, 0.1050),
   (Ticker.GOOGL, 0.1040),
   (Ticker.AVGO, 0.1000),
   (Ticker.MSFT, 0.0950),
   (Ticker.NOW, 0.0910),
   (Ticker.AMZN, 0.0890),
   (Ticker.NFLX, 0.0820),
   (Ticker.META, 0.0790)]

/-- `TICKERS = list(WEIGHTS.keys())` from the source. -/
def TICKERS : List Ticker := WEIGHTS.map Prod.fst

/-- A symbol requested from the market-data feed: either an equity
ticker or the USDJPY FX cross (the string literal appended in
`get_prices_and_fx`). -/
inductive Symbol where
  | equity (t : Ticker)
  | usdjpyFx
deriving DecidableEq

/-- The symbol list passed to the market-data download in
`get_prices_and_fx` (source line 48): the equity tickers plus the FX
cross. -/
def downloadSymbols : List Symbol := TICKERS.map Symbol.equity ++ [Symbol.usdjpyFx]

/-- The holding carried by a requested symbol, if it is an equity. -/
def Symbol.holding? : Symbol → Option Ticker
  | Symbol.equity t => some t
  | Symbol.usdjpyFx => none

/-- Runtime errors of the modelled Python fragments.
`insufficientDataError` is the distinct error kind named by the
specification's error taxonomy; it appears here only so that the
classification of the actual failure can be compared against it — the
source never raises it. -/
inductive PyError where
  | indexError
  | zeroDivisionError
  | insufficientDataError
deriving DecidableEq

/-- pandas positional indexing `rows.iloc[i]` on a list of rows:
a negative index counts from the end; an out-of-range position raises
`IndexError`. -/
def iloc {α : Type} (rows : List α) (i : Int) : Except PyError α :=
  let j : Int := if i < 0 then (rows.length : Int) + i else i
  if j < 0 then Except.error PyError.indexError
  else
    match rows[j.toNat]? with
    | some x => Except.ok x
    | none => Except.error PyError.indexError

/-- Row extraction of `calculate_today_nav` (source lines 78–82):
`prices.iloc[-2]`, `prices.iloc[-1]`, `fx.iloc[-2]`, `fx.iloc[-1]`, in
that order, each propagating its failure. -/
def extract_last_two (prices : List (Ticker → ℚ)) (fx : List ℚ) :
    Except PyError ((Ticker → ℚ) × (Ticker → ℚ) × ℚ × ℚ) :=
  match iloc prices (-2) with
  | Except.error e => Except.error e
  | Except.ok prev_prices =>
    match iloc prices (-1) with
    | Except.error e => Except.error e
    | Except.ok last_prices =>
      match iloc fx (-2) with
      | Except.error e => Except.error e
      | Except.ok prev_fx =>
        match iloc fx (-1) with
        | Except.error e => Except.error e
        | Except.ok last_fx => Except.ok (prev_prices, last_prices, prev_fx, last_fx)

/-- Lookup in the shares dict built by `estimate_shares`.  The pipeline
only ever looks up keys that are present (see the holdings-consistency
theorem), so the default value of the missing-key case is never
observable. -/
def dictGet : List (Ticker × ℚ) → Ticker → ℚ
  | [], _ => 0
  | kv :: rest, k => if k = kv.1 then kv.2 else dictGet rest k

/-- The loop body of `estimate_shares` (source lines 62–64) over a list
of (ticker, weight) pairs: for each pair, `usd_value = (previous_nav *
weight) / prev_fx` and `shares[ticker] = usd_value /
prev_prices[ticker]`.  The first division is pure-Python float division
(`previous_nav` and `prev_fx` both went through `float(...)`) and
raises `ZeroDivisionError` on a zero FX rate, modelled as `none`.  The
second divisor is an `np.float64` (a pandas row element, never
converted with `float()`), so that division never raises: at a zero
price the source stores IEEE ±infinity or NaN (see `npDiv` below for
the value-level semantics); the ℚ quotient recorded here is exact
whenever the price is nonzero, which is the domain every value-level
claim quantifies over. -/
def sharesList (previous_nav prev_fx : ℚ) (prev_prices : Ticker → ℚ) :
    List (Ticker × ℚ) → Option (List (Ticker × ℚ))
  | [] => some []
  | tw :: rest =>
    if prev_fx = 0 then none
    else
      match sharesList previous_nav prev_fx prev_prices rest with
      | none => none
      | some s => some ((tw.1, ((previous_nav * tw.2) / prev_fx) / prev_prices tw.1) :: s)

/-- `estimate_shares` (source lines 58–66): `units = previous_nav /
previous_base_price` (raising on a zero base price), then the per-ticker
loop over `WEIGHTS`. -/
def estimate_shares (previous_nav previous_base_price : ℚ)
    (prev_prices : Ticker → ℚ) (prev_fx : ℚ) :
    Option (List (Ticker × ℚ) × ℚ) :=
  if previous_base_price = 0 then none
  else
    match sharesList previous_nav prev_fx prev_prices WEIGHTS with
    | none => none
    | some shares => some (shares, previous_nav / previous_base_price)

/-- An IEEE-style float value as NumPy produces it: finite, one of the
two infinities, or NaN. -/
inductive NpFloat where
  | finite (q : ℚ)
  | posInf
  | negInf
  | nan
deriving DecidableEq

/-- Whether an `NpFloat` is a finite value. -/
def NpFloat.isFinite : NpFloat → Bool
  | NpFloat.finite _ => true
  | _ => false

/-- The division of source line 64, `usd_value / prev_prices[ticker]`,
at value level: the divisor is an `np.float64` (the pandas row element
is used without a `float()` conversion, and `np.float64` handles the
reflected division), so NumPy IEEE semantics apply — a zero divisor
yields +infinity for a positive dividend, -infinity for a negative one
and NaN for a zero one, with only a RuntimeWarning and no exception;
a nonzero divisor yields the exact quotient. -/
def npDiv (x y : ℚ) : NpFloat :=
  if y = 0 then
    if 0 < x then NpFloat.posInf
    else if x < 0 then NpFloat.negInf
    else NpFloat.nan
  else NpFloat.finite (x / y)

/-- `total_usd = sum(shares[t] * last_prices[t] for t in TICKERS)`
(source line 86), with Python's left-accumulating `sum`. -/
def total_usd (shares : List (Ticker × ℚ)) (last_prices : Ticker → ℚ) : ℚ :=
  TICKERS.foldl (fun acc t => acc + dictGet shares t * last_prices t) 0

/-- `estimated_base_price = total_usd * last_fx / units`
(source lines 87–89). -/
def estimated_base_price (shares : List (Ticker × ℚ)) (last_prices : Ticker → ℚ)
    (last_fx units : ℚ) : ℚ :=
  total_usd shares last_prices * last_fx / units

/-- The NAV-projection step of `calculate_today_nav` (source lines
86–96): the estimated base price together with the absolute difference
and the percentage difference printed on the 前日比 report line.  The
two guards do not model raises: the dividends `total_jpy` and `diff`
are `np.float64` in the source, so a zero `units` or
`previous_base_price` would yield IEEE infinity/NaN there without an
exception.  `none` marks exactly those degenerate inputs, whose result
leaves the ℚ-representable domain; every claim about this step keeps
to the nonzero domain, where the embedding is exact (and where the
surrounding run in fact always is: `previous_base_price = 0` raises
earlier, in `estimate_shares`). -/
def nav_projection (shares : List (Ticker × ℚ)) (units : ℚ)
    (last_prices : Ticker → ℚ) (last_fx previous_base_price : ℚ) :
    Option (ℚ × ℚ × ℚ) :=
  if units = 0 then none
  else if previous_base_price = 0 then none
  else
    let est := estimated_base_price shares last_prices last_fx units
    some (est, est - previous_base_price, (est - previous_base_price) / previous_base_price * 100)

/-- The numeric core of `calculate_today_nav` (source lines 84–96):
estimate the shares from the previous observations, then project the
new base price from the latest observations. -/
def calculate_today_nav_core (previous_nav previous_base_price : ℚ)
    (prev_prices last_prices : Ticker → ℚ) (prev_fx last_fx : ℚ) :
    Option (ℚ × ℚ × ℚ) :=
  match estimate_shares previous_nav previous_base_price prev_prices prev_fx with
  | none => none
  | some (shares, units) =>
      nav_projection shares units last_prices last_fx previous_base_price

/-- `calculate_today_nav` on already-downloaded market data (source
lines 76–96): extract the last two rows of the price table and the FX
series, then run the numeric core.  An `Option` failure of the core
coming from `estimate_shares` (zero base price or FX rate) is Python's
`ZeroDivisionError`; the degenerate `nav_projection` guards are an
over-approximation never exercised by the claims (see
`nav_projection`). -/
def calculate_today_nav_run (previous_nav previous_base_price : ℚ)
    (prices_table : List (Ticker → ℚ)) (fx_series : List ℚ) :
    Except PyError (ℚ × ℚ × ℚ) :=
  match extract_last_two prices_table fx_series with
  | Except.error e => Except.error e
  | Except.ok (prev_prices, last_prices, prev_fx, last_fx) =>
      match calculate_today_nav_core previous_nav previous_base_price
          prev_prices last_prices prev_fx last_fx with
      | none => Except.error PyError.zeroDivisionError
      | some r => Except.ok r

/-- The ticker symbol as printed on a report line. -/
def tickerName : Ticker → String
  | Ticker.CRWD => ("CRWD")
  | Ticker.NVDA => ("NVDA")
  | Ticker.AAPL => ("AAPL")
  | Ticker.GOOGL => ("GOOGL")
  | Ticker.AVGO => ("AVGO")
  | Ticker.MSFT => ("MSFT")
  | Ticker.NOW => ("NOW")
  | Ticker.AMZN => ("AMZN")
  | Ticker.NFLX => ("NFLX")
  | Ticker.META => ("META")

/-- Zero-padded three-digit rendering of a residue below 1000, used for
the thousands groups of the comma format. -/
def pad3 (n : Nat) : String :=
  if n < 10 then ("00") ++ toString n
  else if n < 100 then ("0") ++ toString n
  else toString n

/-- Fuel-driven comma grouping of a natural number (the fuel bounds the
number of thousands groups; the caller passes the number itself, which
always suffices). -/
def groupNatAux : Nat → Nat → String
  | 0, n => toString n
  | fuel + 1, n =>
    if n < 1000 then toString n
    else groupNatAux fuel (n / 1000) ++ (",") ++ pad3 (n % 1000)

/-- Comma-grouped decimal rendering of a natural number, as Python's
thousands separator in `format` produces. -/
def groupNat (n : Nat) : String := groupNatAux n n

/-- Decimal digits of a natural number left-padded with zeros to the
given width (the fractional part of a fixed-point rendering). -/
def padZeros (width : Nat) (n : Nat) : String :=
  let s := toString n
  String.join (List.replicate (width - s.length) ("0")) ++ s

/-- Fixed-point rendering of a rational with `scale` fractional digits,
optionally comma-grouping the integer part: the model of Python's
`:,.2f` / `:.2f` / `:,.1f` format specifiers. -/
def fmtFixed (scale : Nat) (comma : Bool) (q : ℚ) : String :=
  let n : Int := round (q * ((10 : ℚ) ^ scale))
  let sign := if n < 0 then ("-") else ("")
  let m := n.natAbs
  let ip := m / 10 ^ scale
  let fp := m % 10 ^ scale
  let ipStr := if comma then groupNat ip else toString ip
  sign ++ ipStr ++ (".") ++ padZeros scale fp

/-- The Report Formatter (source lines 91–103): the ordered message
lines built from the previous and estimated base prices, the absolute
and percentage change, the FX move, and the per-holding share counts
looked up from the shares dict for each ticker of `TICKERS`.  A pure
function of its seven inputs. -/
def format_report (previous_base_price estimated_base_price_v diff pct prev_fx last_fx : ℚ)
    (shares : List (Ticker × ℚ)) : List String :=
  [("📈【FANG+ 推定基準価額（最新構成銘柄版）】"),
   ("前日基準価額: ") ++ fmtFixed 2 true previous_base_price ++ (" 円"),
   ("推定基準価額: ") ++ fmtFixed 2 true estimated_base_price_v ++ (" 円"),
   ("前日比: ") ++ fmtFixed 2 true diff ++ (" 円 (") ++ fmtFixed 2 false pct ++ ("%)"),
   (""),
   ("USDJPY: ") ++ fmtFixed 2 false prev_fx ++ (" → ") ++ fmtFixed 2 false last_fx,
   ("\n保有株数推定：")] ++
  TICKERS.map (fun t => tickerName t ++ (": ") ++ fmtFixed 1 true (dictGet shares t) ++ ("株"))

/-- An observable action of the Notifier `send_line_message`: a console
log line, or the HTTP POST to the push endpoint (carrying the target
URL, the bearer token, the recipient id and the message text), or the
log of the HTTP response status and body. -/
inductive NotifierAction where
  | log (line : String)
  | httpPost (url : String) (bearerToken : String) (recipient : String) (text : String)
  | logResponse
deriving DecidableEq

/-- Python truthiness of an optional environment value: `None` and the
empty string are falsy (`not token` in the source). -/
def envTruthy : Option String → Bool
  | none => false
  | some s => !s.isEmpty

/-- `send_line_message` (source lines 109–130) as a function from the
two environment credentials and the message text to the list of actions
it performs, in order.  With a missing credential it performs only the
skip log and returns; otherwise it performs the POST and logs the
response. -/
def send_line_message (token userId : Option String) (text : String) :
    List NotifierAction :=
  if !envTruthy token || !envTruthy userId then
    [NotifierAction.log ("❌ LINE の環境変数が設定されていません")]
  else
    [NotifierAction.httpPost ("https://api.line.me/v2/bot/message/push")
       (("Bearer ") ++ token.getD ("")) (userId.getD ("")) text,
     NotifierAction.logResponse]

/-- An observable action of the Orchestrator `main`: a console print or
a Notifier action. -/
inductive MainAction where
  | print (s : String)
  | notify (a : NotifierAction)
deriving DecidableEq

/-- The error-report prefix of the Orchestrator (source line 142). -/
def errorMarker : String := "⚠️ NAV推定でエラー\n\n"

/-- The Orchestrator `main` (source lines 135–144) as a function from
the outcome of `calculate_today_nav` — `Except.ok` with the rendered
message, or `Except.error` with the traceback text of the caught
exception — and the notification credentials to the ordered list of
actions performed. -/
def mainRun (calcResult : Except String String) (token userId : Option String) :
    List MainAction :=
  match calcResult with
  | Except.ok msg =>
      MainAction.print msg :: (send_line_message token userId msg).map MainAction.notify
  | Except.error tracebackText =>
      let error_text := errorMarker ++ tracebackText
      MainAction.print error_text ::
        (send_line_message token userId error_text).map MainAction.notify

/-! Helper lemmas about the embedded definitions, shared by the claim
theorems below. -/

/-- Every ticker is a key of the weight table. -/
theorem mem_TICKERS (t : Ticker) : t ∈ TICKERS := by
  cases t <;> decide

/-- With a nonzero FX rate the estimation loop succeeds and returns
the ℚ quotient for each entry, in order (that quotient is the source's
value exactly when the entry's price is nonzero; see `sharesList`). -/
theorem sharesList_eq_map (previous_nav prev_fx : ℚ) (p : Ticker → ℚ)
    (hfx : prev_fx ≠ 0) :
    ∀ l : List (Ticker × ℚ),
      sharesList previous_nav prev_fx p l =
        some (l.map fun tw => (tw.1, ((previous_nav * tw.2) / prev_fx) / p tw.1)) := by
  intro l
  induction l with
  | nil => rfl
  | cons a rest ih =>
    simp only [sharesList, if_neg hfx, ih, List.map_cons]

/-- `estimate_shares` under the nonzero hypotheses for the two
genuinely raising divisors. -/
theorem estimate_shares_eq (previous_nav previous_base_price : ℚ)
    (p : Ticker → ℚ) (fx : ℚ) (hbp : previous_base_price ≠ 0) (hfx : fx ≠ 0) :
    estimate_shares previous_nav previous_base_price p fx =
      some (WEIGHTS.map fun tw => (tw.1, ((previous_nav * tw.2) / fx) / p tw.1),
        previous_nav / previous_base_price) := by
  simp only [estimate_shares, if_neg hbp,
    sharesList_eq_map previous_nav fx p hfx WEIGHTS]

/-- A successful estimation loop preserves the key list. -/
theorem sharesList_keys (previous_nav prev_fx : ℚ) (p : Ticker → ℚ) :
    ∀ l s : List (Ticker × ℚ), sharesList previous_nav prev_fx p l = some s →
      s.map Prod.fst = l.map Prod.fst := by
  intro l
  induction l with
  | nil =>
    intro s h
    simp only [sharesList, Option.some.injEq] at h
    simp [← h]
  | cons a rest ih =>
    intro s h
    by_cases hfx : prev_fx = 0
    · simp [sharesList, hfx] at h
    · simp only [sharesList, if_neg hfx] at h
      cases hsl : sharesList previous_nav prev_fx p rest with
      | none => rw [hsl] at h; cases h
      | some s2 =>
        rw [hsl] at h
        simp only [Option.some.injEq] at h
        subst h
        simp [ih s2 hsl]

/-- A left fold that only accumulates additions is the sum of the
mapped list. -/
theorem foldl_add_map_sum (f : Ticker → ℚ) :
    ∀ (l : List Ticker) (a : ℚ),
      l.foldl (fun acc t => acc + f t) a = a + (l.map f).sum := by
  intro l
  induction l with
  | nil => intro a; simp
  | cons t rest ih => intro a; simp [ih, add_assoc]

/-- `total_usd` as a mapped sum over the ticker list. -/
theorem total_usd_eq_sum (shares : List (Ticker × ℚ)) (lp : Ticker → ℚ) :
    total_usd shares lp = (TICKERS.map fun t => dictGet shares t * lp t).sum := by
  simpa using foldl_add_map_sum (fun t => dictGet shares t * lp t) TICKERS 0

/-- Looking up each ticker of the weight table in a dict built by
mapping over the weight table recovers the mapped values: `total_usd`
over such a dict is the sum of value × price over the table. -/
theorem total_usd_of_map (g : Ticker × ℚ → ℚ) (lp : Ticker → ℚ) :
    total_usd (WEIGHTS.map fun tw => (tw.1, g tw)) lp =
      (WEIGHTS.map fun tw => g tw * lp tw.1).sum := by
  simp +decide only [total_usd, TICKERS, WEIGHTS, dictGet, List.foldl, List.map,
    if_true, if_false, ite_true, ite_false, List.sum_cons, List.sum_nil]
  ring

/-- The no-change round trip in closed form: with latest observations
equal to the previous ones, the pipeline returns `previousBasePrice`
scaled by the (un-normalized) weight sum `483/500 = 0.9660`. -/
theorem roundtrip_core (nav bp fx : ℚ) (p : Ticker → ℚ)
    (hnav : nav ≠ 0) (hbp : bp ≠ 0) (hfx : fx ≠ 0) (hp : ∀ t, p t ≠ 0) :
    calculate_today_nav_core nav bp p p fx fx =
      some (bp * (483 / 500), bp * (483 / 500) - bp,
        (bp * (483 / 500) - bp) / bp * 100) := by
  have hsh := estimate_shares_eq nav bp p fx hbp hfx
  have hunits : nav / bp ≠ 0 := div_ne_zero hnav hbp
  have htot : total_usd (WEIGHTS.map fun tw => (tw.1, ((nav * tw.2) / fx) / p tw.1)) p
      = nav / fx * (483 / 500) := by
    rw [total_usd_of_map]
    have h1 := hp Ticker.CRWD
    have h2 := hp Ticker.NVDA
    have h3 := hp Ticker.AAPL
    have h4 := hp Ticker.GOOGL
    have h5 := hp Ticker.AVGO
    have h6 := hp Ticker.MSFT
    have h7 := hp Ticker.NOW
    have h8 := hp Ticker.AMZN
    have h9 := hp Ticker.NFLX
    have h10 := hp Ticker.META
    simp only [WEIGHTS, List.map_cons, List.map_nil, List.sum_cons, List.sum_nil]
    rw [div_mul_cancel₀ _ h1, div_mul_cancel₀ _ h2, div_mul_cancel₀ _ h3,
      div_mul_cancel₀ _ h4, div_mul_cancel₀ _ h5, div_mul_cancel₀ _ h6,
      div_mul_cancel₀ _ h7, div_mul_cancel₀ _ h8, div_mul_cancel₀ _ h9,
      div_mul_cancel₀ _ h10]
    field_simp
    ring
  have hest : estimated_base_price
      (WEIGHTS.map fun tw => (tw.1, ((nav * tw.2) / fx) / p tw.1)) p fx (nav / bp)
      = bp * (483 / 500) := by
    rw [estimated_base_price, htot]
    field_simp
    ring
  simp only [calculate_today_nav_core, hsh]
  rw [nav_projection, if_neg hunits, if_neg hbp]
  rw [hest]

/-- `iloc[-2]` on a list with fewer than two rows raises `IndexError`. -/
theorem iloc_neg_two_short {α : Type} (l : List α) (h : l.length < 2) :
    iloc l (-2) = Except.error PyError.indexError := by
  have h2 : ((l.length : Int) + -2) < 0 := by omega
  simp [iloc, h2]

/-- `iloc[-2]` succeeds on a list with at least two rows. -/
theorem iloc_neg_two_ok {α : Type} (l : List α) (h : 2 ≤ l.length) :
    ∃ x, iloc l (-2) = Except.ok x := by
  have h0 : ¬ ((l.length : Int) + -2 < 0) := by omega
  have hlt : ((l.length : Int) + -2).toNat < l.length := by omega
  refine ⟨l.get ⟨((l.length : Int) + -2).toNat, hlt⟩, ?_⟩
  simp [iloc, h0, List.getElem?_eq_getElem hlt]

/-- `iloc[-1]` succeeds on a nonempty list. -/
theorem iloc_neg_one_ok {α : Type} (l : List α) (h : 1 ≤ l.length) :
    ∃ x, iloc l (-1) = Except.ok x := by
  have h0 : ¬ ((l.length : Int) + -1 < 0) := by omega
  have hlt : ((l.length : Int) + -1).toNat < l.length := by omega
  refine ⟨l.get ⟨((l.length : Int) + -1).toNat, hlt⟩, ?_⟩
  simp [iloc, h0, List.getElem?_eq_getElem hlt]

/-- A NumPy division by zero never yields a finite value: it is one of
+infinity, -infinity or NaN, depending on the dividend's sign. -/
theorem npDiv_zero_not_finite (x : ℚ) : (npDiv x 0).isFinite = false := by
  unfold npDiv
  rw [if_pos rfl]
  by_cases h1 : 0 < x
  · rw [if_pos h1]; rfl
  · rw [if_neg h1]
    by_cases h2 : x < 0
    · rw [if_pos h2]; rfl
    · rw [if_neg h2]; rfl

/-- Pointwise-dominated mapped sums over the same index list compare,
strictly when some index compares strictly. -/
theorem map_sum_lt_of_mem (l : List Ticker) (f g : Ticker → ℚ)
    (hle : ∀ t ∈ l, f t ≤ g t) (t0 : Ticker) (hmem : t0 ∈ l) (hlt : f t0 < g t0) :
    (l.map f).sum < (l.map g).sum :=
  List.sum_lt_sum f g hle ⟨t0, hmem, hlt⟩

/-! Claim theorems. -/

/-- C1: for every previousNAV, nonzero previousBasePrice, nonzero
previousFX and nonzero per-holding previous prices, the Share Estimator
returns unit count `previousNAV / previousBasePrice` and, for each
holding with its weight taken unmodified from the weight table,
`shares_h = ((previousNAV * w_h) / previousFX) / previousPrice_h`; the
weight table is used as-is even though its weights do not sum to 1. -/
theorem estimator_matches_spec (previous_nav previous_base_price : ℚ)
    (p : Ticker → ℚ) (fx : ℚ) (hbp : previous_base_price ≠ 0) (hfx : fx ≠ 0)
    (hp : ∀ t, p t ≠ 0) :
    estimate_shares previous_nav previous_base_price p fx =
      some (WEIGHTS.map fun tw => (tw.1, ((previous_nav * tw.2) / fx) / p tw.1),
        previous_nav / previous_base_price)
    ∧ (WEIGHTS.map Prod.snd).sum ≠ 1 := by
  have _ := hp
  exact ⟨estimate_shares_eq previous_nav previous_base_price p fx hbp hfx,
    by norm_num [WEIGHTS]⟩

/-- Witness for C1 at the worked example of the specification
(previousNAV 1000, previousBasePrice 10000, FX 150, all prices 100). -/
theorem estimator_matches_spec_witness :
    estimate_shares 1000 10000 (fun _ => (100 : ℚ)) 150 =
      some (WEIGHTS.map fun tw => (tw.1, ((1000 * tw.2) / 150) / 100), 1000 / 10000)
    ∧ (WEIGHTS.map Prod.snd).sum ≠ 1 :=
  estimator_matches_spec 1000 10000 (fun _ => 100) 150 (by norm_num) (by norm_num)
    (fun t => by norm_num)

/-- C2: for every shares mapping, nonzero unit count, latest prices and
latest FX (and the nonzero previous base price the surrounding run
guarantees), the NAV Projector computes `estimatedBasePrice =
(Σ_h shares_h * latestPrice_h) * latestFX / unitCount` together with the
absolute change versus the previous base price and the percentage
change `(diff / previousBasePrice) * 100`. -/
theorem projector_matches_spec (shares : List (Ticker × ℚ)) (units : ℚ)
    (lp : Ticker → ℚ) (last_fx previous_base_price : ℚ)
    (hu : units ≠ 0) (hbp : previous_base_price ≠ 0) :
    nav_projection shares units lp last_fx previous_base_price =
      some ((TICKERS.map fun t => dictGet shares t * lp t).sum * last_fx / units,
        (TICKERS.map fun t => dictGet shares t * lp t).sum * last_fx / units
          - previous_base_price,
        ((TICKERS.map fun t => dictGet shares t * lp t).sum * last_fx / units
          - previous_base_price) / previous_base_price * 100) := by
  rw [nav_projection, if_neg hu, if_neg hbp]
  simp only [estimated_base_price, total_usd_eq_sum]

/-- Witness for C2: a singleton shares dict, unit count 2, uniform
price 1, FX 3, previous base price 1. -/
theorem projector_matches_spec_witness :
    nav_projection [(Ticker.CRWD, 4)] 2 (fun _ => (1 : ℚ)) 3 1 = some (6, 5, 500) := by
  rw [projector_matches_spec [(Ticker.CRWD, 4)] 2 (fun _ => 1) 3 1
    (by norm_num) (by norm_num)]
  simp +decide only [TICKERS, WEIGHTS, dictGet, List.map_cons, List.map_nil,
    if_true, if_false, ite_true, ite_false, List.sum_cons, List.sum_nil]
  norm_num

/-- C3 counterexample: a no-change scenario (all latest observations
equal to the previous ones, previousBasePrice 10000) in which the
pipeline returns 9660, not the previous base price 10000 — the weight
table sums to 0.9660 and is not normalized. -/
theorem roundtrip_counterexample :
    calculate_today_nav_core 1000 10000 (fun _ => 100) (fun _ => 100) 150 150 =
      some (9660, -340, (-17) / 5)
    ∧ ((9660 : ℚ) ≠ 10000) := by
  constructor
  · rw [roundtrip_core 1000 10000 150 (fun _ => 100) (by norm_num) (by norm_num)
      (by norm_num) (fun t => by norm_num)]
    norm_num
  · norm_num

/-- C3 (amended): in the no-change scenario with nonzero previousNAV,
previousBasePrice, previousFX and per-holding prices, the estimated
base price equals `previousBasePrice × (sum of the weight table)` —
that is, `0.9660 × previousBasePrice` — rather than
`previousBasePrice` itself. -/
theorem roundtrip_amended (nav bp : ℚ) (p : Ticker → ℚ) (fx : ℚ)
    (hnav : nav ≠ 0) (hbp : bp ≠ 0) (hfx : fx ≠ 0) (hp : ∀ t, p t ≠ 0) :
    calculate_today_nav_core nav bp p p fx fx =
      some (bp * (WEIGHTS.map Prod.snd).sum, bp * (WEIGHTS.map Prod.snd).sum - bp,
        (bp * (WEIGHTS.map Prod.snd).sum - bp) / bp * 100) := by
  have hS : (WEIGHTS.map Prod.snd).sum = 483 / 500 := by norm_num [WEIGHTS]
  rw [hS, roundtrip_core nav bp fx p hnav hbp hfx hp]

/-- Witness for the amended C3 at previousNAV 1000, previousBasePrice
10000, FX 150, all prices 100. -/
theorem roundtrip_amended_witness :
    calculate_today_nav_core 1000 10000 (fun _ => (100 : ℚ)) (fun _ => (100 : ℚ)) 150 150 =
      some (10000 * (WEIGHTS.map Prod.snd).sum,
        10000 * (WEIGHTS.map Prod.snd).sum - 10000,
        (10000 * (WEIGHTS.map Prod.snd).sum - 10000) / 10000 * 100) :=
  roundtrip_amended 1000 10000 (fun _ => 100) 150 (by norm_num) (by norm_num)
    (by norm_num) (fun t => by norm_num)

/-- C4 counterexample: with nonzero previousBasePrice and previousFX
but a zero previous price for CRWD, the Share Estimator returns
normally instead of raising — source line 64 divides by an
`np.float64` price, which yields infinity with only a RuntimeWarning —
refuting the claim that a zero previousPrice_h raises/propagates an
arithmetic error. -/
theorem estimator_zero_price_counterexample :
    ((fun t => if t = Ticker.CRWD then (0 : ℚ) else 100) Ticker.CRWD = 0)
    ∧ estimate_shares 1000 10000
        (fun t => if t = Ticker.CRWD then (0 : ℚ) else 100) 150 ≠ none := by
  refine ⟨by norm_num, ?_⟩
  rw [estimate_shares_eq 1000 10000
    (fun t => if t = Ticker.CRWD then (0 : ℚ) else 100) 150 (by norm_num) (by norm_num)]
  simp

/-- C4 (amended): a zero previousBasePrice or previousFX raises the
arithmetic error (lines 59 and 63 are pure-Python float divisions, both
operands having gone through `float(...)`); but a zero previousPrice_h
does not raise: the estimator returns normally, and the NumPy division
of line 64 gives the affected holding a non-finite share value
(±infinity, or NaN for a zero dividend) that flows into the result. -/
theorem estimator_zero_divisor_amended (previous_nav previous_base_price : ℚ)
    (p : Ticker → ℚ) (fx : ℚ) :
    ((previous_base_price = 0 ∨ fx = 0) →
      estimate_shares previous_nav previous_base_price p fx = none)
    ∧ (previous_base_price ≠ 0 → fx ≠ 0 → ∀ t, p t = 0 →
        estimate_shares previous_nav previous_base_price p fx ≠ none
        ∧ (npDiv ((previous_nav * dictGet WEIGHTS t) / fx) (p t)).isFinite = false) := by
  constructor
  · rintro (hbp | hfx)
    · simp [estimate_shares, hbp]
    · by_cases hbp : previous_base_price = 0
      · simp [estimate_shares, hbp]
      · subst hfx
        simp [estimate_shares, hbp, WEIGHTS, sharesList]
  · intro hbp hfx t ht
    constructor
    · rw [estimate_shares_eq previous_nav previous_base_price p fx hbp hfx]
      simp
    · rw [ht]
      exact npDiv_zero_not_finite _

/-- Witness for the amended C4: a zero base price raises, while a zero
CRWD price returns normally with a non-finite CRWD share value. -/
theorem estimator_zero_divisor_amended_witness :
    estimate_shares 1000 0 (fun _ => (100 : ℚ)) 150 = none
    ∧ (estimate_shares 1000 10000
        (fun t => if t = Ticker.CRWD then (0 : ℚ) else 100) 150 ≠ none
      ∧ (npDiv ((1000 * dictGet WEIGHTS Ticker.CRWD) / 150)
          ((fun t => if t = Ticker.CRWD then (0 : ℚ) else 100) Ticker.CRWD)).isFinite
          = false) :=
  ⟨(estimator_zero_divisor_amended 1000 0 (fun _ => 100) 150).1 (Or.inl rfl),
   (estimator_zero_divisor_amended 1000 10000
       (fun t => if t = Ticker.CRWD then (0 : ℚ) else 100) 150).2
     (by norm_num) (by norm_num) Ticker.CRWD (by simp)⟩

/-- C5: for every message text, if the access-token credential or the
recipient-identifier credential is absent from the environment, the
Notifier returns normally (it is a total function) with only the skip
log line, and performs no HTTP POST. -/
theorem notifier_skips_without_credentials (token userId : Option String)
    (text : String) (h : token = none ∨ userId = none) :
    send_line_message token userId text =
      [NotifierAction.log ("❌ LINE の環境変数が設定されていません")]
    ∧ ∀ url bearer recipient body,
        NotifierAction.httpPost url bearer recipient body ∉
          send_line_message token userId text := by
  have hskip : send_line_message token userId text =
      [NotifierAction.log ("❌ LINE の環境変数が設定されていません")] := by
    rcases h with rfl | rfl <;> simp [send_line_message, envTruthy]
  refine ⟨hskip, ?_⟩
  intro url bearer recipient body
  rw [hskip]
  simp

/-- Witness for C5: no token in the environment. -/
theorem notifier_skips_without_credentials_witness :
    send_line_message none (some ("U123")) ("hello") =
      [NotifierAction.log ("❌ LINE の環境変数が設定されていません")] :=
  (notifier_skips_without_credentials none (some ("U123")) ("hello") (Or.inl rfl)).1

/-- C6: for every traceback text of an exception caught during
computation or rendering, the Orchestrator prints an error report made
of the distinct leading marker followed by the full error detail, and
then hands exactly that report to the same Notifier used on the
success path. -/
theorem orchestrator_error_report (tracebackText msgText : String)
    (token userId : Option String) :
    mainRun (Except.error tracebackText) token userId =
      MainAction.print (errorMarker ++ tracebackText) ::
        (send_line_message token userId (errorMarker ++ tracebackText)).map
          MainAction.notify
    ∧ mainRun (Except.ok msgText) token userId =
        MainAction.print msgText ::
          (send_line_message token userId msgText).map MainAction.notify :=
  ⟨rfl, rfl⟩

/-- C7 counterexample: with a single price row (fewer than 2
observations), the pipeline fails with the generic positional
`IndexError` of row extraction, which is not the distinct
`InsufficientDataError` kind named by the specification. -/
theorem insufficient_data_counterexample :
    calculate_today_nav_run 1000 10000 [fun _ => (100 : ℚ)] [(150 : ℚ), 151] =
      Except.error PyError.indexError
    ∧ PyError.indexError ≠ PyError.insufficientDataError :=
  ⟨rfl, by decide⟩

/-- C7 (amended): whenever fewer than 2 observations exist in the
equity price table or in the FX series, the pipeline fails with the
generic out-of-bounds `IndexError` raised by positional row access —
there is no distinct `InsufficientDataError`. -/
theorem insufficient_data_amended (previous_nav previous_base_price : ℚ)
    (prices_table : List (Ticker → ℚ)) (fx_series : List ℚ)
    (h : prices_table.length < 2 ∨ fx_series.length < 2) :
    calculate_today_nav_run previous_nav previous_base_price prices_table fx_series =
      Except.error PyError.indexError := by
  rcases h with hp | hf
  · simp [calculate_today_nav_run, extract_last_two, iloc_neg_two_short prices_table hp]
  · by_cases hp2 : prices_table.length < 2
    · simp [calculate_today_nav_run, extract_last_two,
        iloc_neg_two_short prices_table hp2]
    · push_neg at hp2
      obtain ⟨a, ha⟩ := iloc_neg_two_ok prices_table hp2
      obtain ⟨b, hb⟩ := iloc_neg_one_ok prices_table (by omega)
      simp [calculate_today_nav_run, extract_last_two, ha, hb,
        iloc_neg_two_short fx_series hf]

/-- Witness for the amended C7: two price rows but a single FX
observation. -/
theorem insufficient_data_amended_witness :
    calculate_today_nav_run 1000 10000 [fun _ => (100 : ℚ), fun _ => (101 : ℚ)]
      [(150 : ℚ)] = Except.error PyError.indexError :=
  insufficient_data_amended 1000 10000 [fun _ => (100 : ℚ), fun _ => (101 : ℚ)]
    [(150 : ℚ)] (Or.inr (by norm_num))

/-- C8: the Report Formatter is a pure function of its seven inputs —
two calls with identical inputs (previous and estimated base price,
absolute and percentage change, previous and latest FX, shares)
produce identical output text. -/
theorem formatter_deterministic
    (i1 i2 : ℚ × ℚ × ℚ × ℚ × ℚ × ℚ × List (Ticker × ℚ)) (h : i1 = i2) :
    format_report i1.1 i1.2.1 i1.2.2.1 i1.2.2.2.1 i1.2.2.2.2.1 i1.2.2.2.2.2.1
        i1.2.2.2.2.2.2 =
      format_report i2.1 i2.2.1 i2.2.2.1 i2.2.2.2.1 i2.2.2.2.2.1 i2.2.2.2.2.2.1
        i2.2.2.2.2.2.2 := by
  rw [h]

/-- Witness for C8 at a concrete input tuple. -/
theorem formatter_deterministic_witness :
    format_report 1 2 3 4 5 6 [(Ticker.CRWD, 7)] =
      format_report 1 2 3 4 5 6 [(Ticker.CRWD, 7)] :=
  formatter_deterministic (1, 2, 3, 4, 5, 6, [(Ticker.CRWD, 7)])
    (1, 2, 3, 4, 5, 6, [(Ticker.CRWD, 7)]) rfl

/-- C9: the holdings requested by the Market Data Fetcher, the holdings
the Share Estimator assigns shares to, and the holdings the NAV
Projector sums over (`TICKERS`) are all exactly the key list of the
weight table. -/
theorem holdings_consistent :
    downloadSymbols.filterMap Symbol.holding? = WEIGHTS.map Prod.fst
    ∧ TICKERS = WEIGHTS.map Prod.fst
    ∧ ∀ (previous_nav previous_base_price : ℚ) (p : Ticker → ℚ) (fx : ℚ)
        (shares : List (Ticker × ℚ)) (units : ℚ),
        estimate_shares previous_nav previous_base_price p fx = some (shares, units) →
        shares.map Prod.fst = WEIGHTS.map Prod.fst := by
  refine ⟨rfl, rfl, ?_⟩
  intro previous_nav previous_base_price p fx shares units h
  by_cases hbp : previous_base_price = 0
  · simp [estimate_shares, hbp] at h
  · simp only [estimate_shares, if_neg hbp] at h
    cases hsl : sharesList previous_nav fx p WEIGHTS with
    | none => rw [hsl] at h; cases h
    | some s =>
      rw [hsl] at h
      simp only [Option.some.injEq, Prod.mk.injEq] at h
      rw [← h.1]
      exact sharesList_keys previous_nav fx p WEIGHTS s hsl

/-- Witness for C9: the key list of a concretely computed shares dict
coincides with the key list of the weight table. -/
theorem holdings_consistent_witness :
    ([(Ticker.CRWD, 37 / 5000), (Ticker.NVDA, 11 / 1500), (Ticker.AAPL, 7 / 1000),
      (Ticker.GOOGL, 13 / 1875), (Ticker.AVGO, 1 / 150), (Ticker.MSFT, 19 / 3000),
      (Ticker.NOW, 91 / 15000), (Ticker.AMZN, 89 / 15000), (Ticker.NFLX, 41 / 7500),
      (Ticker.META, 79 / 15000)] : List (Ticker × ℚ)).map Prod.fst =
      WEIGHTS.map Prod.fst :=
  holdings_consistent.2.2 1000 10000 (fun _ => 100) 150 _ (1000 / 10000) (by
    simp +decide only [estimate_shares, sharesList, WEIGHTS, if_true, if_false,
      ite_true, ite_false]
    norm_num)

/-- C10 counterexample: with positive shares (the weight table itself),
positive prices, positive unit count but latestFX = 0 — a value the
claim does not exclude — raising one holding's latest price strictly
does not raise the estimated base price, so the projector is not
strictly increasing in `latestPrice_h` as literally quantified. -/
theorem projector_monotone_counterexample :
    (∀ t, 0 < dictGet WEIGHTS t)
    ∧ ((0 : ℚ) < 1)
    ∧ (∀ t : Ticker, 0 < (fun _ => (1 : ℚ)) t)
    ∧ (∀ t : Ticker, 0 < (fun s => if s = Ticker.CRWD then (2 : ℚ) else 1) t)
    ∧ ((fun _ => (1 : ℚ)) Ticker.CRWD <
        (fun s => if s = Ticker.CRWD then (2 : ℚ) else 1) Ticker.CRWD)
    ∧ ¬ (estimated_base_price WEIGHTS (fun _ => (1 : ℚ)) 0 1 <
          estimated_base_price WEIGHTS (fun s => if s = Ticker.CRWD then (2 : ℚ) else 1)
            0 1) := by
  refine ⟨?_, by norm_num, fun t => by norm_num, ?_, by norm_num, ?_⟩
  · intro t; cases t <;> simp +decide [dictGet, WEIGHTS] <;> norm_num
  · intro t; cases t <;> simp +decide
  · simp [estimated_base_price]

/-- C10 (amended): for positive shares and positive unit count, the
estimated base price is strictly increasing in latestFX whenever the
latest prices are positive, and — with latestFX additionally positive —
strictly increasing in each holding's latest price. -/
theorem projector_monotone_amended (shares : List (Ticker × ℚ)) (units : ℚ)
    (hs : ∀ t, 0 < dictGet shares t) (hu : 0 < units) :
    (∀ (lp : Ticker → ℚ) (fx1 fx2 : ℚ), (∀ t, 0 < lp t) → fx1 < fx2 →
        estimated_base_price shares lp fx1 units <
          estimated_base_price shares lp fx2 units)
    ∧ (∀ (lp1 lp2 : Ticker → ℚ) (fx : ℚ) (h0 : Ticker), 0 < fx →
        (∀ t, 0 < lp1 t) → (∀ t, t ≠ h0 → lp2 t = lp1 t) → lp1 h0 < lp2 h0 →
        estimated_base_price shares lp1 fx units <
          estimated_base_price shares lp2 fx units) := by
  constructor
  · intro lp fx1 fx2 hp hfx
    have hT : 0 < total_usd shares lp := by
      rw [total_usd_eq_sum]
      have hne : (TICKERS.map fun t => dictGet shares t * lp t) ≠ [] := by
        simp [TICKERS, WEIGHTS]
      refine List.sum_pos _ (fun x hx => ?_) hne
      obtain ⟨t, _, rfl⟩ := List.mem_map.mp hx
      exact mul_pos (hs t) (hp t)
    rw [estimated_base_price, estimated_base_price, div_lt_div_iff_of_pos_right hu]
    exact mul_lt_mul_of_pos_left hfx hT
  · intro lp1 lp2 fx h0 hfx hp1 hagree hlt
    have hle : ∀ t ∈ TICKERS, dictGet shares t * lp1 t ≤ dictGet shares t * lp2 t := by
      intro t _
      by_cases ht : t = h0
      · subst ht; exact mul_le_mul_of_nonneg_left hlt.le (hs t).le
      · rw [hagree t ht]
    have hT := map_sum_lt_of_mem TICKERS (fun t => dictGet shares t * lp1 t)
      (fun t => dictGet shares t * lp2 t) hle h0 (mem_TICKERS h0)
      (mul_lt_mul_of_pos_left hlt (hs h0))
    rw [estimated_base_price, estimated_base_price, div_lt_div_iff_of_pos_right hu,
      total_usd_eq_sum, total_usd_eq_sum]
    exact mul_lt_mul_of_pos_right hT hfx

/-- Witness for the amended C10: both monotonicity directions at
concrete inputs (shares = the weight table, unit count 1). -/
theorem projector_monotone_amended_witness :
    estimated_base_price WEIGHTS (fun _ => (1 : ℚ)) 1 1 <
      estimated_base_price WEIGHTS (fun _ => (1 : ℚ)) 2 1 :=
  (projector_monotone_amended WEIGHTS 1
      (fun t => by cases t <;> simp +decide [dictGet, WEIGHTS] <;> norm_num)
      (by norm_num)).1
    (fun _ => 1) 1 2 (fun t => by norm_num) (by norm_num)

end FangNav
